import Mathlib

/-
Verification of the position-based ordering subsystem of a KV-backed Todo
application (Cloudflare Workers + Workers KV).

The embedding models:
  * the Todo record (src/models/todo.ts) — stored records may lack the
    `position` field (legacy data), so the persisted shape carries
    `Option Nat`;
  * the KV storage layer (src/storage/kv.ts): `create`, `getAll` with its
    migration repair and position sort, `update`, `delete`;
  * the HTTP-facing handlers (src/handlers/todos.ts, src/handlers/reorder.ts)
    reduced to their data behaviour: validation outcomes and store effects;
  * the reordering engine `KVStorage.reorderPositions` and the batch writer
    `updatePositions`, whose implementations are absent from the sources
    (only their caller, unit tests and design document are present); they are
    modelled from the spec, as marked in their doc comments.

The key-value store is modelled as a list of stored records in fetch
(enumeration) order; a `put` under an existing key replaces that record in
place, a `put` under a fresh key appends.
-/

/-- In-memory Todo record with a definite position
(src/models/todo.ts, `interface Todo`). -/
structure Todo where
  id : String
  title : String
  completed : Bool
  createdAt : String
  position : Nat
deriving DecidableEq, Repr

/-- A Todo as persisted in the key-value store. The JSON value may lack the
`position` field (legacy records predating the ordering feature), hence the
optional position. -/
structure StoredTodo where
  id : String
  title : String
  completed : Bool
  createdAt : String
  position : Option Nat
deriving DecidableEq, Repr

/-- Comparison used by `todos.sort((a, b) => a.position - b.position)`
(src/storage/kv.ts line 186). -/
def posLe (a b : Todo) : Prop := a.position ≤ b.position

instance : DecidableRel posLe := fun a b => Nat.decLe a.position b.position

instance : IsTotal Todo posLe := ⟨fun a b => Nat.le_total a.position b.position⟩

instance : IsTrans Todo posLe := ⟨fun _ _ _ h h2 => Nat.le_trans h h2⟩

/-- JavaScript `Array.prototype.sort` is a stable sort; we model it with a
stable insertion sort on the `position` key. -/
def sortByPosition (l : List Todo) : List Todo := l.insertionSort posLe

/-- The arithmetic effect of the dense shift on a single position value:
the slot `oldP` moves to `newP`, slots in `(oldP, newP]` shift down by one,
slots in `[newP, oldP)` shift up by one, all others are unchanged. -/
def shiftPos (oldP newP x : Nat) : Nat :=
  if x = oldP then newP
  else if oldP < newP ∧ oldP < x ∧ x ≤ newP then x - 1
  else if newP < oldP ∧ newP ≤ x ∧ x < oldP then x + 1
  else x

theorem shiftPos_shiftPos (oldP newP x : Nat) :
    shiftPos oldP newP (shiftPos newP oldP x) = x := by
  unfold shiftPos
  split_ifs <;> omega

theorem shiftPos_lt (oldP newP x n : Nat) (h1 : oldP < n) (h2 : newP < n)
    (h3 : x < n) : shiftPos oldP newP x < n := by
  unfold shiftPos
  split_ifs <;> omega

theorem shiftPos_injective (oldP newP : Nat) :
    Function.Injective (shiftPos oldP newP) := by
  intro a b h
  have ha := shiftPos_shiftPos newP oldP a
  have hb := shiftPos_shiftPos newP oldP b
  rw [h] at ha
  exact ha.symm.trans hb

theorem map_shiftPos_range (oldP newP n : Nat) (h1 : oldP < n) (h2 : newP < n) :
    ((List.range n).map (shiftPos oldP newP)).Perm (List.range n) := by
  rw [List.perm_ext_iff_of_nodup
    (List.Nodup.map (shiftPos_injective oldP newP) (List.nodup_range n))
    (List.nodup_range n)]
  intro a
  constructor
  · intro hmem
    obtain ⟨x, hx, rfl⟩ := List.mem_map.1 hmem
    rw [List.mem_range] at hx ⊢
    exact shiftPos_lt oldP newP x n h1 h2 hx
  · intro ha
    rw [List.mem_range] at ha
    refine List.mem_map.2 ⟨shiftPos newP oldP a, ?_, shiftPos_shiftPos oldP newP a⟩
    rw [List.mem_range]
    exact shiftPos_lt newP oldP a n h2 h1 ha

/-- Maximum todo count (src/models/todo.ts, TODO_CONSTRAINTS.MAX_TODO_COUNT). -/
def MAX_TODO_COUNT : Nat := 500

/-- Minimum title length (TODO_CONSTRAINTS.MIN_TITLE_LENGTH). -/
def MIN_TITLE_LENGTH : Nat := 1

/-- Maximum title length (TODO_CONSTRAINTS.MAX_TITLE_LENGTH). -/
def MAX_TITLE_LENGTH : Nat := 500

/-- Control character test, regex `[\x00-\x1F\x7F]`
(TODO_CONSTRAINTS.CONTROL_CHARACTERS_REGEX). -/
def isControlChar (c : Char) : Bool := c.toNat ≤ 31 ∨ c.toNat = 127

/-- Title part of `validateTodoInput` (src/utils/validation.ts lines 71-135):
required string of 1..500 units without control characters. The typed request
guarantees `title` is a string and `completed`, when present, a boolean, so
the remaining checks are the length and control-character ones. -/
def validTitle (title : String) : Bool :=
  MIN_TITLE_LENGTH ≤ title.length ∧ title.length ≤ MAX_TITLE_LENGTH
    ∧ ¬ title.toList.any isControlChar

/-- `validateTodoCount` (src/utils/validation.ts lines 200-210): valid iff
the current count is strictly below the 500 limit. -/
def validateTodoCount (currentCount : Nat) : Bool := ¬ MAX_TODO_COUNT ≤ currentCount

/-- Hexadecimal digit test for the UUID regex. -/
def isHexDigit (c : Char) : Bool :=
  (('0' : Char) ≤ c ∧ c ≤ ('9' : Char))
    ∨ (('a' : Char) ≤ c ∧ c ≤ ('f' : Char))
    ∨ (('A' : Char) ≤ c ∧ c ≤ ('F' : Char))

/-- `isValidUUIDv4` (src/utils/validation.ts lines 250-252): the regex
`^[0-9a-f]{8}-[0-9a-f]{4}-4[0-9a-f]{3}-[89ab][0-9a-f]{3}-[0-9a-f]{12}$`
with the `i` flag, expressed positionally over the 36 characters. -/
def isValidUUIDv4 (s : String) : Bool :=
  let cs := s.toList
  cs.length = 36 ∧ (List.range 36).all (fun i =>
    let c := cs.getD i (' ' : Char)
    if i = 8 ∨ i = 13 ∨ i = 18 ∨ i = 23 then c = ('-' : Char)
    else if i = 14 then c = ('4' : Char)
    else if i = 19 then
      c = ('8' : Char) ∨ c = ('9' : Char) ∨ c = ('a' : Char) ∨ c = ('b' : Char)
        ∨ c = ('A' : Char) ∨ c = ('B' : Char)
    else isHexDigit c)

namespace KVStorage

/-- A `put` under key `todos:{t.id}`: replaces the record stored under that
key, or appends a fresh entry when the key is new. -/
def putById (store : List StoredTodo) (t : StoredTodo) : List StoredTodo :=
  if store.any (fun u => u.id = t.id) then
    store.map (fun u => if u.id = t.id then t else u)
  else store ++ [t]

/-- `KVStorage.create` (src/storage/kv.ts lines 122-126): serializes the given
record as-is under `todos:{id}` and returns it unchanged. -/
def create (store : List StoredTodo) (todo : StoredTodo) :
    StoredTodo × List StoredTodo :=
  (todo, putById store todo)

/-- `KVStorage.getById` (src/storage/kv.ts lines 207-216). -/
def getById (store : List StoredTodo) (id : String) : Option StoredTodo :=
  store.find? (fun t => t.id = id)

/-- The migration repair of one fetched record (src/storage/kv.ts lines
168-174): a record whose `position` is `undefined` receives its index in the
fetch-result array; any other record is kept as-is. -/
def repairTodo (i : Nat) (t : StoredTodo) : Todo :=
  match t.position with
  | none => { id := t.id, title := t.title, completed := t.completed,
              createdAt := t.createdAt, position := i }
  | some p => { id := t.id, title := t.title, completed := t.completed,
                createdAt := t.createdAt, position := p }

/-- Serialization of an in-memory Todo back to its stored shape
(`JSON.stringify` always writes the `position` field once it is set). -/
def toStored (t : Todo) : StoredTodo :=
  { id := t.id, title := t.title, completed := t.completed,
    createdAt := t.createdAt, position := some t.position }

/-- Outcome of `KVStorage.getAll`: the returned collection, the records
written back by the migration repair, and the store contents after the call. -/
structure GetAllResult where
  todos : List Todo
  writes : List StoredTodo
  store : List StoredTodo
deriving DecidableEq, Repr

/-- `KVStorage.getAll` (src/storage/kv.ts lines 153-187). The input list is
the fetch-result array (all records under the `todos:` prefix in enumeration
order). Records missing `position` get `position = index`; if any repair
occurred, every record of the collection is written back (`needsUpdate`
guards the whole batch); the returned collection is sorted ascending by
position. Each write targets the record's own existing key, so the store
keeps its enumeration order with records replaced in place. -/
def getAll (store : List StoredTodo) : GetAllResult :=
  let repaired := store.mapIdx repairTodo
  let needsUpdate := store.any (fun t => t.position = none)
  { todos := sortByPosition repaired
    writes := if needsUpdate then repaired.map toStored else []
    store := if needsUpdate then repaired.map toStored else store }

/-- Typed update payload (src/models/todo.ts, `UpdateTodoRequest`): the update
handler always passes a body of this shape, so the merge in
`KVStorage.update` can only touch `title` and `completed`. -/
structure UpdateTodoRequest where
  title : Option String
  completed : Option Bool
deriving DecidableEq, Repr

/-- `KVStorage.update` (src/storage/kv.ts lines 245-265): fetches the record,
merges the supplied fields over it (object-spread semantics: absent fields do
not override), pins `id` and `createdAt` to the existing values, and writes
the result back under the same key. -/
def update (store : List StoredTodo) (id : String) (updates : UpdateTodoRequest) :
    Option StoredTodo × List StoredTodo :=
  match getById store id with
  | none => (none, store)
  | some existing =>
    let updated : StoredTodo :=
      { id := existing.id
        title := updates.title.getD existing.title
        completed := updates.completed.getD existing.completed
        createdAt := existing.createdAt
        position := existing.position }
    (some updated, putById store updated)

/-- `KVStorage.delete` (src/storage/kv.ts lines 286-298): checks existence via
`getById`, then deletes the single key `todos:{id}`. No other record is
touched — in particular no position is compacted. -/
def delete (store : List StoredTodo) (id : String) : Bool × List StoredTodo :=
  match getById store id with
  | none => (false, store)
  | some _ => (true, store.filter (fun t => ¬ t.id = id))

/-- The per-record effect of the dense shift, written as the design document
and spec describe it: the target record's position becomes `newPosition`;
when moving forward every record with position in `(oldPos, newPosition]` is
decremented by one; when moving backward every record with position in
`[newPosition, oldPos)` is incremented by one; every other record is
unchanged in all fields. -/
def shiftTodo (oldPos newPosition : Nat) (targetId : String) (t : Todo) : Todo :=
  if t.id = targetId then { t with position := newPosition }
  else if oldPos < newPosition ∧ oldPos < t.position ∧ t.position ≤ newPosition then
    { t with position := t.position - 1 }
  else if newPosition < oldPos ∧ newPosition ≤ t.position ∧ t.position < oldPos then
    { t with position := t.position + 1 }
  else t

/-- Modelled from the spec: `KVStorage.reorderPositions`, the pure ordering
engine. Its implementation is missing from the sources — only its caller
(src/handlers/reorder.ts), its unit tests (test/unit/middleware/auth.test.ts,
`describe('reorderPositions')`) and the design document describe it. Per spec
section 4.2: locate the target, no-op when the position is unchanged,
otherwise apply the dense shift and return the collection ordered by the new
positions. -/
def reorderPositions (todos : List Todo) (targetId : String) (newPosition : Nat) :
    List Todo :=
  match todos.find? (fun t => t.id = targetId) with
  | none => todos
  | some target =>
    if target.position = newPosition then todos
    else sortByPosition (todos.map (shiftTodo target.position newPosition targetId))

/-- Modelled from the spec: `KVStorage.updatePositions`, the batch position
writer. Its implementation is missing from the sources (declared in the
design document only): it issues one unconditional `put` per given record. -/
def updatePositions (store : List StoredTodo) (updates : List Todo) :
    List StoredTodo :=
  updates.foldl (fun s t => putById s (toStored t)) store

end KVStorage

/-- Outcome of `createTodoHandler`, reduced to its data behaviour. -/
inductive CreateResult where
  | validationError
  | limitExceeded
  | created (todo : StoredTodo)
deriving DecidableEq, Repr

/-- `createTodoHandler` (src/handlers/todos.ts lines 63-119): validates the
title, loads the collection (`storage.getAll()`), rejects when the count has
reached 500 (`validateTodoCount`), otherwise builds the new record — with
`completed: false` and, exactly as in the source, WITHOUT a `position` field —
and persists it via `storage.create`. `newId` stands for `crypto.randomUUID()`
and `now` for `new Date().toISOString()`. -/
def createTodoHandler (store : List StoredTodo) (title : String)
    (newId : String) (now : String) : CreateResult × List StoredTodo :=
  if ¬ validTitle title then (.validationError, store)
  else
    let g := KVStorage.getAll store
    if ¬ validateTodoCount g.todos.length then (.limitExceeded, g.store)
    else
      let newTodo : StoredTodo :=
        { id := newId, title := title, completed := false, createdAt := now,
          position := none }
      let c := KVStorage.create g.store newTodo
      (.created c.1, c.2)

/-- Outcome of `deleteTodoHandler`, reduced to its data behaviour. -/
inductive DeleteResult where
  | invalidIdFormat
  | notFound
  | noContent
deriving DecidableEq, Repr

/-- `deleteTodoHandler` (src/handlers/todos.ts lines 343-381): validates the
UUID, then simply calls `storage.delete(id)`; a `false` return maps to 404,
`true` to 204. -/
def deleteTodoHandler (store : List StoredTodo) (id : String) :
    DeleteResult × List StoredTodo :=
  if ¬ isValidUUIDv4 id then (.invalidIdFormat, store)
  else
    let d := KVStorage.delete store id
    if d.1 then (.noContent, d.2) else (.notFound, d.2)

/-- Outcome of `reorderHandler`, reduced to its data behaviour. The first
three constructors are the 400/404 rejections in source order. -/
inductive ReorderResult where
  | invalidIdFormat
  | invalidNewPosition
  | notFound
  | outOfRange
  | ok (todos : List Todo)
deriving DecidableEq, Repr

/-- `reorderHandler` (src/handlers/reorder.ts): rejects a malformed UUID,
then a non-number or negative `newPosition`, then loads the collection via
`storage.getAll()`; a missing target id yields 404, `newPosition ≥ length`
yields 400, otherwise the shifted collection is computed by
`KVStorage.reorderPositions`, persisted through `updatePositions` and
returned. `newPosition` is an integer, so it may be negative. -/
def reorderHandler (store : List StoredTodo) (id : String) (newPosition : Int) :
    ReorderResult × List StoredTodo :=
  if ¬ isValidUUIDv4 id then (.invalidIdFormat, store)
  else if newPosition < 0 then (.invalidNewPosition, store)
  else
    let g := KVStorage.getAll store
    match g.todos.find? (fun t => t.id = id) with
    | none => (.notFound, g.store)
    | some _ =>
      if (g.todos.length : Int) ≤ newPosition then (.outOfRange, g.store)
      else
        let reordered := KVStorage.reorderPositions g.todos id newPosition.toNat
        (.ok reordered, KVStorage.updatePositions g.store reordered)

/-- Shorthand for a concrete in-memory Todo used by examples and witnesses. -/
def mkTodo (id : String) (p : Nat) : Todo :=
  { id := id, title := "task", completed := false,
    createdAt := "2025-10-27T10:30:00.000Z", position := p }

/-- Shorthand for a concrete stored record. -/
def mkStored (id : String) (p : Option Nat) : StoredTodo :=
  { id := id, title := "task", completed := false,
    createdAt := "2025-10-27T10:30:00.000Z", position := p }

example :
    KVStorage.reorderPositions
      [mkTodo "a" 0, mkTodo "b" 1, mkTodo "c" 2, mkTodo "d" 3] "c" 0
      = [mkTodo "c" 0, mkTodo "a" 1, mkTodo "b" 2, mkTodo "d" 3] := by decide

example :
    KVStorage.reorderPositions
      [mkTodo "a" 0, mkTodo "b" 1, mkTodo "c" 2, mkTodo "d" 3] "a" 2
      = [mkTodo "b" 0, mkTodo "c" 1, mkTodo "a" 2, mkTodo "d" 3] := by decide

example :
    KVStorage.reorderPositions [mkTodo "a" 0, mkTodo "b" 1, mkTodo "c" 2] "b" 1
      = [mkTodo "a" 0, mkTodo "b" 1, mkTodo "c" 2] := by decide

theorem KVStorage.shiftTodo_id (oldP newP : Nat) (targetId : String) (t : Todo) :
    (KVStorage.shiftTodo oldP newP targetId t).id = t.id := by
  unfold KVStorage.shiftTodo
  split_ifs <;> rfl

theorem KVStorage.shiftTodo_position (todos : List Todo) (target : Todo)
    (targetId : String) (newPosition : Nat)
    (hfind : todos.find? (fun t => t.id = targetId) = some target)
    (hid : (todos.map Todo.id).Nodup)
    (hpos : (todos.map Todo.position).Nodup)
    {t : Todo} (ht : t ∈ todos) :
    (KVStorage.shiftTodo target.position newPosition targetId t).position
      = shiftPos target.position newPosition t.position := by
  have htmem := List.mem_of_find?_eq_some hfind
  have htid : target.id = targetId := by
    have h := List.find?_some hfind
    simpa using h
  by_cases h : t.id = targetId
  · have hteq : t = target :=
      List.inj_on_of_nodup_map hid ht htmem (by rw [h, htid])
    subst hteq
    simp [KVStorage.shiftTodo, shiftPos, h]
  · have hne : t.position ≠ target.position := by
      intro hp
      exact h (by rw [List.inj_on_of_nodup_map hpos ht htmem hp, htid])
    simp only [KVStorage.shiftTodo, shiftPos, if_neg h, if_neg hne]
    split_ifs <;> simp

/-- Claim C1: for every collection whose positions are dense and every valid
reorder request (the target id identifies a record, `0 ≤ newPosition < N`),
the collection returned by `reorderPositions` carries exactly the record ids
of the input (as a permutation) and its position values form exactly the set
`{0, ..., N-1}` with no duplicates (as a permutation of `range N`), with the
collection size unchanged. -/
theorem reorder_preserves_ids_and_density
    (todos : List Todo) (targetId : String) (newPosition : Nat)
    (hid : (todos.map Todo.id).Nodup)
    (hdense : (todos.map Todo.position).Perm (List.range todos.length))
    (hmem : ∃ t ∈ todos, t.id = targetId)
    (hlt : newPosition < todos.length) :
    ((KVStorage.reorderPositions todos targetId newPosition).map Todo.id).Perm
        (todos.map Todo.id)
    ∧ ((KVStorage.reorderPositions todos targetId newPosition).map
        Todo.position).Perm (List.range todos.length)
    ∧ (KVStorage.reorderPositions todos targetId newPosition).length
        = todos.length := by
  have hex : (todos.find? (fun t => t.id = targetId)).isSome := by
    rw [List.find?_isSome]
    obtain ⟨t, ht, h⟩ := hmem
    exact ⟨t, ht, by simpa using h⟩
  obtain ⟨target, hfind⟩ := Option.isSome_iff_exists.1 hex
  have htmem := List.mem_of_find?_eq_some hfind
  have hpos : (todos.map Todo.position).Nodup :=
    hdense.nodup_iff.2 (List.nodup_range _)
  have htlt : target.position < todos.length := by
    have hm : target.position ∈ todos.map Todo.position :=
      List.mem_map_of_mem _ htmem
    have hr := hdense.mem_iff.1 hm
    simpa [List.mem_range] using hr
  by_cases heq : target.position = newPosition
  · have hres : KVStorage.reorderPositions todos targetId newPosition = todos := by
      unfold KVStorage.reorderPositions
      rw [hfind]
      simp [heq]
    rw [hres]
    exact ⟨List.Perm.refl _, hdense, rfl⟩
  · have hres : KVStorage.reorderPositions todos targetId newPosition
        = sortByPosition
          (todos.map (KVStorage.shiftTodo target.position newPosition targetId)) := by
      unfold KVStorage.reorderPositions
      rw [hfind]
      simp [heq]
    have hperm :
        (sortByPosition
          (todos.map (KVStorage.shiftTodo target.position newPosition targetId))).Perm
        (todos.map (KVStorage.shiftTodo target.position newPosition targetId)) :=
      List.perm_insertionSort posLe _
    refine ⟨?_, ?_, ?_⟩
    · rw [hres]
      have h1 := hperm.map Todo.id
      have h2 : (todos.map
          (KVStorage.shiftTodo target.position newPosition targetId)).map Todo.id
          = todos.map Todo.id := by
        rw [List.map_map]
        apply List.map_congr_left
        intro a _
        exact KVStorage.shiftTodo_id _ _ _ a
      rw [h2] at h1
      exact h1
    · rw [hres]
      have h1 := hperm.map Todo.position
      have h2 : (todos.map
          (KVStorage.shiftTodo target.position newPosition targetId)).map Todo.position
          = (todos.map Todo.position).map (shiftPos target.position newPosition) := by
        rw [List.map_map, List.map_map]
        apply List.map_congr_left
        intro a ha
        exact KVStorage.shiftTodo_position todos target targetId newPosition
          hfind hid hpos ha
      rw [h2] at h1
      have h3 := hdense.map (shiftPos target.position newPosition)
      have h4 := map_shiftPos_range target.position newPosition todos.length htlt hlt
      exact h1.trans (h3.trans h4)
    · rw [hres]
      have h1 := hperm.length_eq
      rw [List.length_map] at h1
      exact h1

/-- Concrete dense collection used by the reorder witnesses (the scenario of
the repository's own unit tests). -/
def todos4 : List Todo := [mkTodo "a" 0, mkTodo "b" 1, mkTodo "c" 2, mkTodo "d" 3]

/-- Witness for C1 at the concrete collection `todos4`, moving record `c`
to position 0. -/
theorem reorder_density_witness :
    ((KVStorage.reorderPositions todos4 "c" 0).map Todo.id).Perm
        (todos4.map Todo.id)
    ∧ ((KVStorage.reorderPositions todos4 "c" 0).map Todo.position).Perm
        (List.range todos4.length)
    ∧ (KVStorage.reorderPositions todos4 "c" 0).length = todos4.length :=
  reorder_preserves_ids_and_density todos4 "c" 0 (by decide) (by decide)
    (by decide) (by decide)

/-- Claim C2: for a reorder whose target exists at `oldPosition ≠ newPosition`,
the result is a permutation of the input in which exactly the records with
positions in `(oldPosition, newPosition]` are decremented (forward move),
exactly those in `[newPosition, oldPosition)` are incremented (backward move),
the target's position becomes `newPosition`, and every other record is
unchanged in all fields — this is precisely `shiftTodo` applied per record. -/
theorem reorder_shift_frame (todos : List Todo) (targetId : String)
    (newPosition : Nat) (target : Todo)
    (hfind : todos.find? (fun t => t.id = targetId) = some target)
    (hne : target.position ≠ newPosition) :
    (KVStorage.reorderPositions todos targetId newPosition).Perm
      (todos.map (KVStorage.shiftTodo target.position newPosition targetId)) := by
  have hres : KVStorage.reorderPositions todos targetId newPosition
      = sortByPosition
        (todos.map (KVStorage.shiftTodo target.position newPosition targetId)) := by
    unfold KVStorage.reorderPositions
    rw [hfind]
    simp [hne]
  rw [hres]
  exact List.perm_insertionSort posLe _

/-- Witness for C2 at the concrete collection `todos4`, moving `c` (at
position 2) to position 0. -/
theorem reorder_shift_frame_witness :
    (KVStorage.reorderPositions todos4 "c" 0).Perm
      (todos4.map (KVStorage.shiftTodo (mkTodo "c" 2).position 0 "c")) :=
  reorder_shift_frame todos4 "c" 0 (mkTodo "c" 2) (by decide) (by decide)

/-- A well-formed UUID v4 present in the concrete stores below. -/
def uuidA : String := "550e8400-e29b-41d4-a716-446655440000"

/-- Further well-formed UUID v4 values. -/
def uuidB : String := "550e8400-e29b-41d4-a716-446655440001"

def uuidC : String := "550e8400-e29b-41d4-a716-446655440002"

def uuidD : String := "550e8400-e29b-41d4-a716-446655440003"

/-- A well-formed UUID v4 that is NOT present in the concrete stores below. -/
def uuidMissing : String := "111e8400-e29b-41d4-a716-446655440000"

/-- Claim C3 (evaluating the code at the failing input): creating a todo on an
empty collection with a valid title persists and returns a record whose
`position` field is ABSENT (`none`), not `position = 0` as the specification
and the repository's own model documentation require — `createTodoHandler`
builds `newTodo` without a `position` field. -/
theorem create_omits_position :
    createTodoHandler [] "task" uuidA "2025-10-27T15:00:00.000Z"
      = (CreateResult.created
          { id := uuidA, title := "task", completed := false,
            createdAt := "2025-10-27T15:00:00.000Z", position := none },
         [{ id := uuidA, title := "task", completed := false,
            createdAt := "2025-10-27T15:00:00.000Z", position := none }]) := by
  decide

/-- The dense 4-record store used by the deletion claim. -/
def store4 : List StoredTodo :=
  [mkStored uuidA (some 0), mkStored uuidB (some 1),
   mkStored uuidC (some 2), mkStored uuidD (some 3)]

/-- Claim C4 (evaluating the code at the failing input): deleting the record
at position 1 from the dense 4-record store succeeds (204) but leaves the
remaining positions as `{0, 2, 3}` — no compaction happens and nothing is
written back, while the claim (and the repository's own storage test)
requires the remaining positions to become `{0, 1, 2}`. -/
theorem delete_does_not_compact :
    (deleteTodoHandler store4 uuidB).1 = DeleteResult.noContent
    ∧ ((deleteTodoHandler store4 uuidB).2.map StoredTodo.position)
        = [some 0, some 2, some 3] := by
  decide

/-- Claim C5: any fetched record whose position is absent is assigned
`position = index` (its index in the fetch-result array), appears with that
position in the returned collection, and is persisted back to the store
within the write batch. -/
theorem getAll_assigns_index_and_persists (store : List StoredTodo) (i : Nat)
    (h : i < store.length)
    (hmiss : (store.get ⟨i, h⟩).position = none) :
    ({ id := (store.get ⟨i, h⟩).id, title := (store.get ⟨i, h⟩).title,
       completed := (store.get ⟨i, h⟩).completed,
       createdAt := (store.get ⟨i, h⟩).createdAt, position := i } : Todo)
      ∈ (KVStorage.getAll store).todos
    ∧ ({ id := (store.get ⟨i, h⟩).id, title := (store.get ⟨i, h⟩).title,
         completed := (store.get ⟨i, h⟩).completed,
         createdAt := (store.get ⟨i, h⟩).createdAt,
         position := some i } : StoredTodo)
      ∈ (KVStorage.getAll store).writes := by
  simp only [List.get_eq_getElem] at hmiss ⊢
  have hle : i < (store.mapIdx KVStorage.repairTodo).length := by simpa using h
  have hrep : (store.mapIdx KVStorage.repairTodo)[i] = KVStorage.repairTodo i store[i] :=
    List.getElem_mapIdx
  have hval : KVStorage.repairTodo i store[i]
      = { id := store[i].id, title := store[i].title,
          completed := store[i].completed, createdAt := store[i].createdAt,
          position := i } := by
    unfold KVStorage.repairTodo
    rw [hmiss]
  have hmem : KVStorage.repairTodo i store[i] ∈ store.mapIdx KVStorage.repairTodo := by
    rw [← hrep]
    exact List.getElem_mem hle
  have hneeds : store.any (fun t => t.position = none) = true :=
    List.any_eq_true.2 ⟨store[i], List.getElem_mem h, by simp [hmiss]⟩
  constructor
  · have hsort : KVStorage.repairTodo i store[i]
        ∈ sortByPosition (store.mapIdx KVStorage.repairTodo) :=
      (List.perm_insertionSort posLe _).mem_iff.2 hmem
    rw [← hval]
    simpa [KVStorage.getAll] using hsort
  · have himg : KVStorage.toStored (KVStorage.repairTodo i store[i])
        ∈ (store.mapIdx KVStorage.repairTodo).map KVStorage.toStored :=
      List.mem_map_of_mem _ hmem
    have heq2 : KVStorage.toStored (KVStorage.repairTodo i store[i])
        = { id := store[i].id, title := store[i].title,
            completed := store[i].completed, createdAt := store[i].createdAt,
            position := some i } := by
      rw [hval]
      rfl
    rw [← heq2]
    simpa [KVStorage.getAll, hneeds] using himg

/-- The two-record legacy store of the spec's end-to-end scenario 5. -/
def storeXY : List StoredTodo := [mkStored "x" none, mkStored "y" none]

/-- Witness for C5: for the legacy two-record collection fetched in order
`[x, y]`, `x` receives position 0 and `y` position 1, and both repaired
records are persisted. -/
theorem getAll_migration_witness :
    (({ id := "x", title := "task", completed := false,
        createdAt := "2025-10-27T10:30:00.000Z", position := 0 } : Todo)
        ∈ (KVStorage.getAll storeXY).todos
      ∧ ({ id := "x", title := "task", completed := false,
           createdAt := "2025-10-27T10:30:00.000Z",
           position := some 0 } : StoredTodo) ∈ (KVStorage.getAll storeXY).writes)
    ∧ (({ id := "y", title := "task", completed := false,
          createdAt := "2025-10-27T10:30:00.000Z", position := 1 } : Todo)
        ∈ (KVStorage.getAll storeXY).todos
      ∧ ({ id := "y", title := "task", completed := false,
           createdAt := "2025-10-27T10:30:00.000Z",
           position := some 1 } : StoredTodo) ∈ (KVStorage.getAll storeXY).writes) :=
  ⟨getAll_assigns_index_and_persists storeXY 0 (by decide) (by decide),
   getAll_assigns_index_and_persists storeXY 1 (by decide) (by decide)⟩

/-- Claim C6: every `getAll` call returns the collection sorted ascending by
`position`. -/
theorem getAll_sorted (store : List StoredTodo) :
    (KVStorage.getAll store).todos.Pairwise
      (fun a b => a.position ≤ b.position) := by
  have h := List.sorted_insertionSort posLe (store.mapIdx KVStorage.repairTodo)
  simpa [KVStorage.getAll, sortByPosition, posLe] using h

theorem KVStorage.toStored_repairTodo (i : Nat) (t : StoredTodo) (p : Nat)
    (hp : t.position = some p) :
    KVStorage.toStored (KVStorage.repairTodo i t) = t := by
  obtain ⟨tid, ttl, tco, tca, tpos⟩ := t
  simp only at hp
  subst hp
  rfl

/-- Claim C10: when at least one fetched record lacks a position, `getAll`
writes the whole collection back — as many writes as records — and in
particular a record whose position was already present is written back
verbatim (unchanged), not excluded from the batch. -/
theorem getAll_writes_whole_collection (store : List StoredTodo)
    (hsome : ∃ t ∈ store, t.position = none)
    (i : Nat) (h : i < store.length) (p : Nat)
    (hp : (store.get ⟨i, h⟩).position = some p) :
    (KVStorage.getAll store).writes.length = store.length
    ∧ store.get ⟨i, h⟩ ∈ (KVStorage.getAll store).writes := by
  simp only [List.get_eq_getElem] at hp ⊢
  have hneeds : store.any (fun t => t.position = none) = true := by
    obtain ⟨t, ht, hpos⟩ := hsome
    exact List.any_eq_true.2 ⟨t, ht, by simp [hpos]⟩
  have hwrites : (KVStorage.getAll store).writes
      = (store.mapIdx KVStorage.repairTodo).map KVStorage.toStored := by
    simp [KVStorage.getAll, hneeds]
  constructor
  · rw [hwrites]
    simp
  · rw [hwrites]
    have hle : i < (store.mapIdx KVStorage.repairTodo).length := by simpa using h
    have hmem : KVStorage.repairTodo i store[i]
        ∈ store.mapIdx KVStorage.repairTodo := by
      have hrep : (store.mapIdx KVStorage.repairTodo)[i]
          = KVStorage.repairTodo i store[i] := List.getElem_mapIdx
      rw [← hrep]
      exact List.getElem_mem hle
    have himg := List.mem_map_of_mem KVStorage.toStored hmem
    rwa [KVStorage.toStored_repairTodo i store[i] p hp] at himg

/-- Store used by the C10 witness: one legacy record and one record whose
position is already present. -/
def storeC10 : List StoredTodo := [mkStored "x" none, mkStored "y" (some 5)]

/-- Witness for C10: with one legacy record present, both records are written
back, including the untouched `y` record. -/
theorem getAll_writes_whole_collection_witness :
    (KVStorage.getAll storeC10).writes.length = storeC10.length
    ∧ storeC10.get ⟨1, by decide⟩ ∈ (KVStorage.getAll storeC10).writes :=
  getAll_writes_whole_collection storeC10 (by decide) 1 (by decide) 5 (by decide)

/-- Claim C9: updating an existing record preserves `id`, `createdAt` and
`position`; `title` and `completed` take the supplied values when present and
keep their original values otherwise; the same merged record is persisted
(under the record's own key) and returned. -/
theorem update_preserves_frame (store : List StoredTodo) (id : String)
    (updates : KVStorage.UpdateTodoRequest) (existing : StoredTodo)
    (hfind : KVStorage.getById store id = some existing) :
    (KVStorage.update store id updates).1
      = some { id := existing.id,
               title := updates.title.getD existing.title,
               completed := updates.completed.getD existing.completed,
               createdAt := existing.createdAt,
               position := existing.position }
    ∧ (KVStorage.update store id updates).2
      = KVStorage.putById store
          { id := existing.id,
            title := updates.title.getD existing.title,
            completed := updates.completed.getD existing.completed,
            createdAt := existing.createdAt,
            position := existing.position } := by
  unfold KVStorage.update
  rw [hfind]
  exact ⟨rfl, rfl⟩

/-- Witness for C9 at a concrete store: a title-only update of record `x`
keeps `completed`, `createdAt` and `position` intact. -/
theorem update_preserves_frame_witness :
    (KVStorage.update [mkStored "x" (some 3)] "x"
        { title := some "new title", completed := none }).1
      = some { id := "x",
               title := (some "new title").getD (mkStored "x" (some 3)).title,
               completed := Option.getD none (mkStored "x" (some 3)).completed,
               createdAt := (mkStored "x" (some 3)).createdAt,
               position := (mkStored "x" (some 3)).position }
    ∧ (KVStorage.update [mkStored "x" (some 3)] "x"
        { title := some "new title", completed := none }).2
      = KVStorage.putById [mkStored "x" (some 3)]
          { id := "x",
            title := (some "new title").getD (mkStored "x" (some 3)).title,
            completed := Option.getD none (mkStored "x" (some 3)).completed,
            createdAt := (mkStored "x" (some 3)).createdAt,
            position := (mkStored "x" (some 3)).position } := by
  have h := update_preserves_frame [mkStored "x" (some 3)] "x"
    { title := some "new title", completed := none } (mkStored "x" (some 3))
    (by decide)
  simpa [mkStored] using h

/-- Store with the single record `uuidA` used by the reorder-validation
claims. -/
def storeC7 : List StoredTodo := [mkStored uuidA (some 0)]

/-- Claim C7 counterexample: for a well-formed UUID that does NOT exist in the
loaded collection together with the integer `newPosition = -1`, the handler
rejects with the invalid-newPosition 400 error BEFORE the existence check, so
the operation does not fail with NotFound as the claim requires. -/
theorem reorder_validation_counterexample :
    isValidUUIDv4 uuidMissing = true
    ∧ ((KVStorage.getAll storeC7).todos.find? (fun t => t.id = uuidMissing)) = none
    ∧ (reorderHandler storeC7 uuidMissing (-1)).1 = ReorderResult.invalidNewPosition
    ∧ (reorderHandler storeC7 uuidMissing (-1)).1 ≠ ReorderResult.notFound := by
  decide

/-- Claim C7 amended: for a well-formed UUID id and integer `newPosition`,
the checks apply in source order — a negative `newPosition` is rejected as
invalid (400) before the existence check; for `newPosition ≥ 0` a missing id
yields NotFound; for an existing id, `newPosition ≥ N` yields the
out-of-range 400; and with `0 ≤ newPosition < N` the request passes the
checks and returns the reordered collection. -/
theorem reorder_validation_amended (store : List StoredTodo) (id : String)
    (newPosition : Int) (huuid : isValidUUIDv4 id = true) :
    (newPosition < 0 →
      (reorderHandler store id newPosition).1 = ReorderResult.invalidNewPosition)
    ∧ (0 ≤ newPosition →
        (KVStorage.getAll store).todos.find? (fun t => t.id = id) = none →
        (reorderHandler store id newPosition).1 = ReorderResult.notFound)
    ∧ (0 ≤ newPosition →
        ((KVStorage.getAll store).todos.find? (fun t => t.id = id)).isSome = true →
        ((KVStorage.getAll store).todos.length : Int) ≤ newPosition →
        (reorderHandler store id newPosition).1 = ReorderResult.outOfRange)
    ∧ (0 ≤ newPosition →
        ((KVStorage.getAll store).todos.find? (fun t => t.id = id)).isSome = true →
        newPosition < ((KVStorage.getAll store).todos.length : Int) →
        (reorderHandler store id newPosition).1
          = ReorderResult.ok (KVStorage.reorderPositions
              (KVStorage.getAll store).todos id newPosition.toNat)) := by
  refine ⟨fun hneg => ?_, fun hpos hnone => ?_, fun hpos hsome hge => ?_,
    fun hpos hsome hlt2 => ?_⟩
  · simp [reorderHandler, huuid, hneg]
  · have h1 : ¬ newPosition < 0 := by omega
    simp [reorderHandler, huuid, h1, hnone]
  · obtain ⟨target, hfind⟩ := Option.isSome_iff_exists.1 hsome
    have h1 : ¬ newPosition < 0 := by omega
    simp [reorderHandler, huuid, h1, hfind, hge]
  · obtain ⟨target, hfind⟩ := Option.isSome_iff_exists.1 hsome
    have h1 : ¬ newPosition < 0 := by omega
    have h2 : ¬ ((KVStorage.getAll store).todos.length : Int) ≤ newPosition := by
      omega
    simp [reorderHandler, huuid, h1, hfind, h2]

/-- Witness for the amended C7, instantiating each branch on the one-record
store: negative position → invalid-newPosition; missing id at position 0 →
NotFound; existing id at position 5 → out of range; existing id at position
0 → accepted. -/
theorem reorder_validation_amended_witness :
    (reorderHandler storeC7 uuidMissing (-1)).1 = ReorderResult.invalidNewPosition
    ∧ (reorderHandler storeC7 uuidMissing 0).1 = ReorderResult.notFound
    ∧ (reorderHandler storeC7 uuidA 5).1 = ReorderResult.outOfRange
    ∧ (reorderHandler storeC7 uuidA 0).1
        = ReorderResult.ok (KVStorage.reorderPositions
            (KVStorage.getAll storeC7).todos uuidA (Int.toNat 0)) :=
  ⟨(reorder_validation_amended storeC7 uuidMissing (-1) (by decide)).1 (by decide),
   (reorder_validation_amended storeC7 uuidMissing 0 (by decide)).2.1 (by decide)
     (by decide),
   (reorder_validation_amended storeC7 uuidA 5 (by decide)).2.2.1 (by decide)
     (by decide) (by decide),
   (reorder_validation_amended storeC7 uuidA 0 (by decide)).2.2.2 (by decide)
     (by decide) (by decide)⟩

theorem KVStorage.toStored_repairTodo_id (i : Nat) (t : StoredTodo) :
    (KVStorage.toStored (KVStorage.repairTodo i t)).id = t.id := by
  obtain ⟨tid, ttl, tco, tca, tpos⟩ := t
  cases tpos <;> rfl

theorem KVStorage.getAll_todos_length (store : List StoredTodo) :
    (KVStorage.getAll store).todos.length = store.length := by
  simp [KVStorage.getAll, sortByPosition, List.length_insertionSort]

/-- Claim C8 amended: invoking create on a 500-record collection fails with
the limit error and writes no new record — the set of stored ids is
unchanged — and the store contents are entirely unchanged provided every
existing record already has a position; (when some record lacks a position,
the load step's migration repair may still rewrite existing records, see the
counterexample). -/
theorem create_limit_no_write (store : List StoredTodo)
    (title newId now : String)
    (hvt : validTitle title = true)
    (hlen : store.length = MAX_TODO_COUNT) :
    (createTodoHandler store title newId now).1 = CreateResult.limitExceeded
    ∧ (createTodoHandler store title newId now).2.map StoredTodo.id
        = store.map StoredTodo.id
    ∧ (store.all (fun t => ¬ t.position = none) = true →
        (createTodoHandler store title newId now).2 = store) := by
  have hlen2 : (KVStorage.getAll store).todos.length = MAX_TODO_COUNT := by
    rw [KVStorage.getAll_todos_length, hlen]
  have hcount : validateTodoCount (KVStorage.getAll store).todos.length = false := by
    simp [validateTodoCount, hlen2, MAX_TODO_COUNT]
  have hsnd : (createTodoHandler store title newId now).2
      = (KVStorage.getAll store).store := by
    simp [createTodoHandler, hvt, hcount]
  refine ⟨by simp [createTodoHandler, hvt, hcount], ?_, ?_⟩
  · rw [hsnd]
    by_cases hnu : store.any (fun t => t.position = none) = true
    · have hst : (KVStorage.getAll store).store
          = (store.mapIdx KVStorage.repairTodo).map KVStorage.toStored := by
        simp [KVStorage.getAll, hnu]
      rw [hst]
      apply List.ext_getElem
      · simp
      · intro n h1 h2
        have hn : n < store.length := by simpa using h2
        simp only [List.getElem_map, List.getElem_mapIdx]
        exact KVStorage.toStored_repairTodo_id n (store.get ⟨n, hn⟩)
    · have hnu2 : store.any (fun t => t.position = none) = false :=
        Bool.eq_false_iff.2 hnu
      simp [KVStorage.getAll, hnu2]
  · intro hall
    have hnu : store.any (fun t => t.position = none) = false := by
      rw [List.any_eq_false]
      intro x hx
      have hx2 := List.all_eq_true.1 hall x hx
      simpa using hx2
    rw [hsnd]
    simp [KVStorage.getAll, hnu]

/-- A 500-record store whose first record is a legacy record without a
position (the remaining 499 records carry positions 1..499). -/
def legacyStore : List StoredTodo :=
  mkStored "legacy" none
    :: (List.range 499).map (fun i => mkStored (Nat.repr i) (some (i + 1)))

/-- Claim C8 counterexample: on a 500-record collection containing a legacy
record, the create call does fail with the limit error, but the store
contents are NOT unchanged — the failed create's `getAll` step persists the
migration repair, rewriting the legacy record with `position = 0`. -/
theorem create_limit_store_changed :
    (createTodoHandler legacyStore "task" uuidMissing
        "2025-10-27T15:00:00.000Z").1 = CreateResult.limitExceeded
    ∧ (createTodoHandler legacyStore "task" uuidMissing
        "2025-10-27T15:00:00.000Z").2 ≠ legacyStore := by
  have hvt : validTitle "task" = true := by decide
  have hlen0 : legacyStore.length = MAX_TODO_COUNT := by
    simp only [legacyStore, List.length_cons, List.length_map,
      List.length_range, MAX_TODO_COUNT]
  have hlen2 : (KVStorage.getAll legacyStore).todos.length = MAX_TODO_COUNT := by
    rw [KVStorage.getAll_todos_length, hlen0]
  have hcount : validateTodoCount (KVStorage.getAll legacyStore).todos.length
      = false := by
    simp [validateTodoCount, hlen2, MAX_TODO_COUNT]
  have hneeds : legacyStore.any (fun t => t.position = none) = true := by
    simp [legacyStore, mkStored]
  have hsnd : (createTodoHandler legacyStore "task" uuidMissing
      "2025-10-27T15:00:00.000Z").2 = (KVStorage.getAll legacyStore).store := by
    simp [createTodoHandler, hvt, hcount]
  have hst : (KVStorage.getAll legacyStore).store
      = (legacyStore.mapIdx KVStorage.repairTodo).map KVStorage.toStored := by
    simp [KVStorage.getAll, hneeds]
  constructor
  · simp [createTodoHandler, hvt, hcount]
  · rw [hsnd, hst]
    intro hEq
    have h0 := congrArg List.head? hEq
    rw [show legacyStore = mkStored "legacy" none
        :: (List.range 499).map (fun i => mkStored (Nat.repr i) (some (i + 1)))
      from rfl] at h0
    rw [List.mapIdx_cons, List.map_cons] at h0
    simp [KVStorage.repairTodo, KVStorage.toStored, mkStored] at h0

/-- A 500-record store in which every record already has a position. -/
def goodStore : List StoredTodo :=
  (List.range 500).map (fun i => mkStored (Nat.repr i) (some i))

/-- Witness for the amended C8: on the fully-positioned 500-record store the
create call fails with the limit error, the stored ids are unchanged, and
the store contents are exactly unchanged. -/
theorem create_limit_no_write_witness :
    (createTodoHandler goodStore "task" uuidB "2025-10-27T15:00:00.000Z").1
        = CreateResult.limitExceeded
    ∧ (createTodoHandler goodStore "task" uuidB
        "2025-10-27T15:00:00.000Z").2.map StoredTodo.id
        = goodStore.map StoredTodo.id
    ∧ (createTodoHandler goodStore "task" uuidB
        "2025-10-27T15:00:00.000Z").2 = goodStore := by
  have h := create_limit_no_write goodStore "task" uuidB
    "2025-10-27T15:00:00.000Z" (by decide)
    (by simp only [goodStore, List.length_map, List.length_range, MAX_TODO_COUNT])
  refine ⟨h.1, h.2.1, h.2.2 ?_⟩
  rw [List.all_eq_true]
  intro x hx
  simp only [goodStore, List.mem_map, List.mem_range] at hx
  obtain ⟨i, _, rfl⟩ := hx
  simp [mkStored]
